import Mathlib

/-!
Verification of the `rc_filter` RC low-pass filter calculator, a shallow
embedding over `ℚ` and `List Char` of `src/rc_filter.py`.

Modelling conventions:

* Python floats are modelled as exact rationals.  Every numeric literal in
  the program (the prefix factors `1e-12 … 1e6`, parsed decimal inputs) is an
  exact decimal, and `math.pi` is modelled by the exact value of the IEEE-754
  double nearest π, namely `884279719003555 / 2^48`.  Floating-point rounding
  error between operations sits far below the 3-significant-figure
  granularity at which every observable of this program lives, and the
  decimal strings the program prints are exactly the decimals this model
  computes.
* Python strings are modelled as `List Char` (the program only meets ASCII).
* A Python function that can raise an uncaught exception is modelled with
  `Except PyErr`; a function that merely prints a complaint and returns a
  junk value (`''` or `None`) is modelled by returning that junk value, as
  the source does.
* The library operations `Rat.add`, `Rat.mul`, `Rat.inv`, … are irreducible,
  so the embedding computes with a small definitionally-reducible layer
  (`qadd`, `qmul`, `qdiv`, `tenPow`) built on `Rat.divInt`; bridge lemmas
  relate the layer to the ordinary field operations of `ℚ`.
-/

/-- Python exception classes that the source can actually let escape. -/
inductive PyErr : Type
  /-- Python `ValueError`: either the explicit `raise ValueError(...)` in
  `input_tidy`, or a `ValueError` escaping from `float(...)` or from
  formatting a non-numeric value with a numeric format code. -/
  | valueError : PyErr
  /-- the bare `Exception('... missing units.')` raised by `input_tidy`. -/
  | exception : PyErr
  /-- Python `IndexError` from `value[-1]` / `value[-2]` on a too-short
  string. -/
  | indexError : PyErr
deriving DecidableEq

/-- The three unit kinds, the values of the `unit` dictionary in
`get_unit`. -/
inductive Kind : Type
  | frequency : Kind
  | resistance : Kind
  | capacitance : Kind
deriving DecidableEq

/-- Decidable equality for `Except` results, so closed runs of the embedded
program can be settled by `decide`. -/
def exceptDecEq {ε α : Type} [DecidableEq ε] [DecidableEq α] :
    DecidableEq (Except ε α) := fun a b =>
  match a, b with
  | .error x, .error y =>
    match decEq x y with
    | .isTrue h => .isTrue (h ▸ rfl)
    | .isFalse h => .isFalse (fun hc => h (Except.error.inj hc))
  | .ok x, .ok y =>
    match decEq x y with
    | .isTrue h => .isTrue (h ▸ rfl)
    | .isFalse h => .isFalse (fun hc => h (Except.ok.inj hc))
  | .error _, .ok _ => .isFalse (fun hc => Except.noConfusion hc)
  | .ok _, .error _ => .isFalse (fun hc => Except.noConfusion hc)

instance {ε α : Type} [DecidableEq ε] [DecidableEq α] :
    DecidableEq (Except ε α) := exceptDecEq

/-- Reducible rational addition (the library `Rat.add` is irreducible). -/
def qadd (a b : ℚ) : ℚ := Rat.divInt (a.num * b.den + b.num * a.den) (a.den * b.den)

/-- Reducible rational subtraction. -/
def qsub (a b : ℚ) : ℚ := qadd a (-b)

/-- Reducible rational multiplication. -/
def qmul (a b : ℚ) : ℚ := Rat.divInt (a.num * b.num) (a.den * b.den)

/-- Reducible rational division (`qdiv a 0 = 0`, like `a / 0` on `ℚ`). -/
def qdiv (a b : ℚ) : ℚ := Rat.divInt (a.num * b.den) (a.den * b.num)

/-- Reducible `10^e` for an integer exponent: the exact value of the Python
float literals `1e-12 … 1e6` and of `10 ** i` in `add_prefix`. -/
def tenPow : ℤ → ℚ
  | .ofNat n => (((10 : ℕ) ^ n : ℕ) : ℚ)
  | .negSucc n => mkRat 1 ((10 : ℕ) ^ (n + 1))

/-- Fuel-driven decimal logarithm on `ℕ`: `logFuel f n` is `⌊log₁₀ n⌋`
whenever the fuel `f` exceeds that logarithm. -/
def logFuel : ℕ → ℕ → ℕ
  | 0, _ => 0
  | f + 1, n => if n < 10 then 0 else logFuel f (n / 10) + 1

/-- Computable `⌊log₁₀ n⌋` (junk `0` for `n = 0`). -/
def natLog10 (n : ℕ) : ℕ := logFuel n n

/-- Fuel-driven ceiling decimal logarithm on `ℕ`. -/
def clogFuel : ℕ → ℕ → ℕ
  | 0, _ => 0
  | f + 1, n => if n ≤ 1 then 0 else clogFuel f ((n + 9) / 10) + 1

/-- Computable `⌈log₁₀ n⌉` for `n ≥ 1`. -/
def clog10 (n : ℕ) : ℕ := clogFuel n n

/-- Round a rational to the nearest integer, ties to even: the rounding that
Python's `format(value, '.3g')` applies to the decimal digit string. -/
def rhe (q : ℚ) : ℤ :=
  if qsub q (⌊q⌋ : ℚ) < mkRat 1 2 then ⌊q⌋
  else if mkRat 1 2 < qsub q (⌊q⌋ : ℚ) then ⌊q⌋ + 1
  else if 2 ∣ ⌊q⌋ then ⌊q⌋ else ⌊q⌋ + 1

/-- Decimal exponent of a positive rational: the unique `e` with
`10^e ≤ q < 10^(e+1)`.  (Junk on `q ≤ 0`, which is guarded everywhere.) -/
def decExp (q : ℚ) : ℤ :=
  if 1 ≤ q then (natLog10 ⌊q⌋₊ : ℤ) else -(clog10 ⌈qdiv 1 q⌉₊ : ℤ)

/-- Rounding of a positive rational to 3 significant decimal digits: the
effect of Python's `float(f"{value:.3g}")` on a positive float. -/
def sigPos (a : ℚ) : ℚ :=
  qmul ((rhe (qdiv a (tenPow (decExp a - 2))) : ℚ)) (tenPow (decExp a - 2))

/-- Source `sig_fig` on a numeric argument: round to 3 significant decimal
digits.  The source computes
`x = f'{float(f"{value:.3g}"):g}'; x = float(x); if int(x) == x: x = int(x)`,
that is, it produces the 3-significant-digit decimal numeral of `value` and
reads it back; the final `int` conversion changes only the Python type, never
the numeric value.  The `%.3g` conversion rounds the decimal expansion
half-to-even, acts symmetrically on negative numbers, and maps `0` to `0`. -/
def sig_fig (q : ℚ) : ℚ :=
  if q = 0 then 0 else if q < 0 then -sigPos (-q) else sigPos q

/-- Exact value of the IEEE-754 double `math.pi` used by the source. -/
def mathPi : ℚ := mkRat 884279719003555 281474976710656

/-- Source `get_frequency`: `f = 1/(2*pi*resistance*capacitance)`. -/
def get_frequency (resistance capacitance : ℚ) : ℚ :=
  qdiv 1 (qmul (qmul (qmul 2 mathPi) resistance) capacitance)

/-- Source `get_component`: `x = (1/frequency)/(2*pi*component)`. -/
def get_component (frequency component : ℚ) : ℚ :=
  qdiv (qdiv 1 frequency) (qmul (qmul 2 mathPi) component)

/-- Decimal digit string of an integer, as Python `str` renders an `int`. -/
def intStr (n : ℤ) : List Char :=
  if n < 0 then '-' :: Nat.toDigits 10 n.natAbs else Nat.toDigits 10 n.natAbs

/-- Fuel-driven search for the smallest `k` with `a * 10^k` integral. -/
def decScaleAux : ℕ → ℚ → ℕ
  | 0, _ => 0
  | f + 1, a => if a.den = 1 then 0 else decScaleAux f (qmul a 10) + 1

/-- Smallest `k` with `a * 10^k` integral (for decimal-finite `a`; every
value a Python float prints as a finite decimal is of this form). -/
def decScale (a : ℚ) : ℕ := decScaleAux a.den a

/-- Exponent suffix of Python float repr scientific notation: `e` then an
explicit sign then at least two digits (`1e-12`, `2e-08`, `1e+16`). -/
def sciExpChars (e : ℤ) : List Char :=
  let ds := Nat.toDigits 10 e.natAbs
  let ds2 := if ds.length < 2 then '0' :: ds else ds
  if e < 0 then 'e' :: '-' :: ds2 else 'e' :: '+' :: ds2

/-- Python `str` of a positive non-integral float whose value is the exact
decimal `a`: plain positional notation while the decimal exponent lies in
`[-4, 16)`, scientific notation outside that range. -/
def posRepr (a : ℚ) : List Char :=
  let k := decScale a
  let ds := Nat.toDigits 10 (qmul a (((10 : ℕ) ^ k : ℕ) : ℚ)).num.natAbs
  let e : ℤ := (ds.length : ℤ) - 1 - (k : ℤ)
  if e < -4 ∨ 16 ≤ e then
    match ds with
    | [] => []
    | d :: rest =>
      if rest.isEmpty then d :: sciExpChars e
      else d :: '.' :: (rest ++ sciExpChars e)
  else if k < ds.length then
    ds.take (ds.length - k) ++ '.' :: ds.drop (ds.length - k)
  else
    '0' :: '.' :: (List.replicate (k - ds.length) '0' ++ ds)

/-- Python `str` of a number as the source prints it: plain digits for an
`int` (the source converts a float with `num == int(num)` to `int` before
printing), float repr otherwise. -/
def renderNum (q : ℚ) : List Char :=
  if q.den = 1 then intStr q.num
  else if q.num < 0 then '-' :: posRepr (-q) else posRepr q

/-- The scan loops of `add_prefix`: first exponent `i` in the list with
`1000 > value / 10**i > 1`, else the sentinel `1` (the loop variable
`exponent` keeps its initial value `1` when no branch matches). -/
def scanExp (q : ℚ) : List ℤ → ℤ
  | [] => 1
  | i :: rest =>
    if 1000 > qdiv q (tenPow i) ∧ qdiv q (tenPow i) > 1 then i
    else scanExp q rest

/-- Exponent selection of `add_prefix`: `range(3, 7, 3) = [3, 6]` for values
above 1, `range(-12, -2, 3) = [-12, -9, -6, -3]` for values below 1, and the
sentinel `1` when `num == 1`. -/
def pickExp (q : ℚ) : ℤ :=
  if q > 1 then scanExp q [3, 6]
  else if q < 1 then scanExp q [-12, -9, -6, -3] else 1

/-- The `prefix` dictionary of `add_prefix`: exponent to symbol. -/
def prefixSym (e : ℤ) : Option (List Char) :=
  if e = -12 then some ['p'] else if e = -9 then some ['n']
  else if e = -6 then some ['u'] else if e = -3 then some ['m']
  else if e = 3 then some ['k'] else if e = 6 then some ['M'] else none

/-- Source `add_prefix` on a numeric argument.  When the selected exponent is
not the sentinel `1`, the value is divided by `10**exponent`, re-rounded with
`sig_fig`, rendered, and the symbol appended; `none` models the `KeyError`
branch that prints `'Gadzooks!'` and falls off the function returning Python
`None`.  Otherwise the bare number is rendered (after the `int` conversion
for integral values, which `renderNum` performs). -/
def add_prefix (q : ℚ) : Option (List Char) :=
  if pickExp q ≠ 1 then
    match prefixSym (pickExp q) with
    | some sym => some (renderNum (sig_fig (qdiv q (tenPow (pickExp q)))) ++ sym)
    | none => none
  else some (renderNum q)

/-- The available power-of-ten steps of the engineering formatter, including
the no-symbol step `0`. -/
def stepList : List ℤ := [-12, -9, -6, -3, 0, 3, 6]

/-- Symbol text for a step: the prefix symbol, or empty for step `0`. -/
def symFor (e : ℤ) : List Char :=
  match prefixSym e with
  | some s => s
  | none => []

/-- Formalization of claim C3 at a single value `v`: the string returned by
`add_prefix` is `<number><symbol>` for some available step `e`, with the
numeric part equal to `v / 10^e` and lying in `[1, 1000)`. -/
def ClaimC3 (v : ℚ) : Prop :=
  ∃ e ∈ stepList, add_prefix v = some (renderNum (qdiv v (tenPow e)) ++ symFor e) ∧
    1 ≤ qdiv v (tenPow e) ∧ qdiv v (tenPow e) < 1000

instance (v : ℚ) : Decidable (ClaimC3 v) := by
  unfold ClaimC3; infer_instance

/-- First index of a character satisfying `p`, Python `str.find` style. -/
def pyFindAux (p : Char → Bool) : List Char → Option ℕ
  | [] => none
  | c :: cs => if p c then some 0 else (pyFindAux p cs).map (· + 1)

/-- Python `x.find(c)`: first index of `c` in `x`, `-1` when absent. -/
def pyFind (cs : List Char) (c : Char) : ℤ :=
  match pyFindAux (fun x => x == c) cs with
  | some i => (i : ℤ)
  | none => -1

/-- The normalization prelude of `input_tidy`: drop all whitespace
(`''.join(value.split())`), then lowercase — except that when the string
contains an `'M'` (detected by `x.find('M') != x.lower().find('M')`, and the
lowercased string never contains `'M'`), the first `'M'` is restored after
lowercasing. -/
def tidyCase (value : List Char) : List Char :=
  let x := value.filter (fun c => !c.isWhitespace)
  if pyFind x 'M' ≠ pyFind (x.map Char.toLower) 'M' then
    match pyFindAux (fun c => c == 'M') x with
    | some mega => (x.map Char.toLower).set mega 'M'
    | none => x.map Char.toLower
  else x.map Char.toLower

/-- Source `input_tidy`: normalize, then truncate at the first
unit-indicating letter (`o`, else `h` with a `'z'` appended, else `f`).  The
length guard `len(value) >= 2` inspects the raw argument; shorter arguments
raise the bare `Exception` (missing units), and arguments with none of the
three letters raise `ValueError` (unit not recognized). -/
def input_tidy (value : List Char) : Except PyErr (List Char) :=
  let x := tidyCase value
  if 2 ≤ value.length then
    match pyFindAux (fun c => c == 'o') x with
    | some i => .ok (x.take (i + 1))
    | none =>
      match pyFindAux (fun c => c == 'h') x with
      | some i => .ok (x.take (i + 1) ++ ['z'])
      | none =>
        match pyFindAux (fun c => c == 'f') x with
        | some i => .ok (x.take (i + 1))
        | none => .error .valueError
  else .error .exception

/-- Source `get_unit`: classify by the last character through the `unit`
dictionary.  All failure paths of the source (`KeyError` on an unknown
letter, a trailing digit, and the `IndexError` crash on an empty string)
print and return the junk `''`, modelled as `none`. -/
def get_unit (value : List Char) : Option Kind :=
  match value.getLast? with
  | none => none
  | some c =>
    if c.isAlpha then
      if c = 'h' ∨ c = 'z' then some .frequency
      else if c = 'o' then some .resistance
      else if c = 'f' then some .capacitance
      else none
    else none

/-- Source `strip_unit`: drop a trailing `hz` (2 characters) or a trailing
`f`/`o` (1 character).  `value[-2]` is evaluated first, so a 1-character
alphabetic string raises `IndexError`; the print-and-continue paths return
the junk `''`. -/
def strip_unit (value : List Char) : Except PyErr (List Char) :=
  match value.getLast? with
  | none => .error .indexError
  | some c1 =>
    if c1.isAlpha then
      match value.dropLast.getLast? with
      | none => .error .indexError
      | some c2 =>
        if c2 = 'h' ∧ c1 = 'z' then .ok value.dropLast.dropLast
        else if c1 = 'f' ∨ c1 = 'o' then .ok value.dropLast
        else .ok []
    else .ok []

/-- Numeric value of a digit string, most significant first. -/
def digitsVal (cs : List Char) : ℕ :=
  cs.foldl (fun a c => 10 * a + (c.toNat - 48)) 0

/-- Mantissa of a Python float literal: digits, optionally interrupted by one
point.  Returns the digits' value and the number of fractional digits. -/
def parseMant (cs : List Char) : Option (ℕ × ℕ) :=
  let ip := cs.takeWhile Char.isDigit
  let r := cs.drop ip.length
  match r with
  | [] => if ip.isEmpty then none else some (digitsVal ip, 0)
  | '.' :: fr =>
    if fr.all Char.isDigit && !(ip.isEmpty && fr.isEmpty) then
      some (digitsVal (ip ++ fr), fr.length)
    else none
  | _ => none

/-- Exponent part of a Python float literal (after the `e`/`E`). -/
def parseExpTail (cs : List Char) : Option ℤ :=
  match cs with
  | '-' :: r =>
    if !r.isEmpty && r.all Char.isDigit then some (-(digitsVal r : ℤ)) else none
  | '+' :: r =>
    if !r.isEmpty && r.all Char.isDigit then some ((digitsVal r : ℤ)) else none
  | r =>
    if !r.isEmpty && r.all Char.isDigit then some ((digitsVal r : ℤ)) else none

/-- Python `float(...)` on the decimal literals this program meets: optional
sign, digits with at most one point, optional `e`/`E` exponent.  `none`
models the `ValueError` of an unparseable string. -/
def pyFloat (cs : List Char) : Option ℚ :=
  let sgncs : ℚ × List Char :=
    match cs with
    | '-' :: r => (-1, r)
    | '+' :: r => (1, r)
    | _ => (1, cs)
  let mant := sgncs.2.takeWhile (fun c => !(c == 'e' || c == 'E'))
  let rest := sgncs.2.drop mant.length
  match parseMant mant, rest with
  | some (v, fl), [] => some (qmul sgncs.1 (qdiv ((v : ℕ) : ℚ) (tenPow (fl : ℤ))))
  | some (v, fl), _ :: et =>
    match parseExpTail et with
    | some ex =>
      some (qmul (qmul sgncs.1 (qdiv ((v : ℕ) : ℚ) (tenPow (fl : ℤ)))) (tenPow ex))
    | none => none
  | none, _ => none

/-- The `prefix` dictionary of `strip_prefix`: symbol to scale factor. -/
def prefVal (c : Char) : Option ℚ :=
  if c = 'p' then some (tenPow (-12)) else if c = 'n' then some (tenPow (-9))
  else if c = 'u' then some (tenPow (-6)) else if c = 'm' then some (tenPow (-3))
  else if c = 'k' then some (tenPow 3) else if c = 'M' then some (tenPow 6)
  else none

/-- Source `strip_prefix`: the expression
`float(value[:-1]) * prefix[value[-1]]` evaluates `float(value[:-1])` first
(Python evaluates left to right), and the handler catches only `KeyError` —
so an unparseable numeric head lets the `ValueError` of `float` escape
uncaught, before the prefix symbol is ever inspected.  This includes the
empty head of a 1-character token and of an empty token (`float('')`), so
`value[-1]` is only reached with a nonempty token.  With a parseable head:
a recognized trailing symbol scales the head by its factor; on `KeyError`
(no such symbol) a trailing digit makes the final `x = float(x)` parse the
whole token, while any other trailing character makes `int(value[-1])`
raise `ValueError`, which is printed, after which `float('')` crashes with
an uncaught `ValueError`. -/
def strip_prefix (value : List Char) : Except PyErr ℚ :=
  match pyFloat value.dropLast with
  | none => .error .valueError
  | some q =>
    match value.getLast? with
    | none => .error .valueError
    | some last =>
      match prefVal last with
      | some f => .ok (qmul q f)
      | none =>
        if last.isDigit then
          match pyFloat value with
          | some q2 => .ok q2
          | none => .error .valueError
        else .error .valueError

/-- The per-argument pipeline of `main`:
`sig_fig(strip_prefix(strip_unit(input_tidy(arg))))`. -/
def parse_value (cs : List Char) : Except PyErr ℚ :=
  match input_tidy cs with
  | .error e => .error e
  | .ok t =>
    match strip_unit t with
    | .error e => .error e
    | .ok s =>
      match strip_prefix s with
      | .error e => .error e
      | .ok q => .ok (sig_fig q)

/-- The unit classification of `main`: `get_unit(input_tidy(arg))`. -/
def parse_kind (cs : List Char) : Option Kind :=
  match input_tidy cs with
  | .error _ => none
  | .ok t => get_unit t

/-- Source `sig_fig` on a string argument.  A parseable string is converted
by `float(value)` and rounded as usual.  For an unparseable string the
`except ValueError` handler prints `'Input not recognized.'` but does not
abort, so `value` is still a `str` when the next line formats it with the
numeric code `.3g`, and that raises an uncaught
`ValueError: Unknown format code 'g' for object of type 'str'`. -/
def sig_fig_str (cs : List Char) : Except PyErr ℚ :=
  match pyFloat cs with
  | some q => .ok (sig_fig q)
  | none => .error .valueError

lemma qadd_eq (a b : ℚ) : qadd a b = a + b := by
  have hda : ((a.den : ℚ)) ≠ 0 := Nat.cast_ne_zero.mpr a.den_nz
  have hdb : ((b.den : ℚ)) ≠ 0 := Nat.cast_ne_zero.mpr b.den_nz
  rw [qadd, Rat.divInt_eq_div]
  conv_rhs => rw [← Rat.num_div_den a, ← Rat.num_div_den b]
  rw [div_add_div _ _ hda hdb]
  push_cast
  ring_nf

lemma qsub_eq (a b : ℚ) : qsub a b = a - b := by
  rw [qsub, qadd_eq, sub_eq_add_neg]

lemma qmul_eq (a b : ℚ) : qmul a b = a * b := by
  have hda : ((a.den : ℚ)) ≠ 0 := Nat.cast_ne_zero.mpr a.den_nz
  have hdb : ((b.den : ℚ)) ≠ 0 := Nat.cast_ne_zero.mpr b.den_nz
  rw [qmul, Rat.divInt_eq_div]
  conv_rhs => rw [← Rat.num_div_den a, ← Rat.num_div_den b]
  rw [div_mul_div_comm]
  push_cast
  ring_nf

lemma qdiv_eq (a b : ℚ) : qdiv a b = a / b := by
  by_cases hb : b = 0
  · subst hb
    show Rat.divInt (a.num * (0 : ℚ).den) (a.den * (0 : ℚ).num) = a / 0
    have h0 : (0 : ℚ).num = 0 := rfl
    rw [h0, mul_zero, Rat.divInt_zero, div_zero]
  · have hda : ((a.den : ℚ)) ≠ 0 := Nat.cast_ne_zero.mpr a.den_nz
    have hdb : ((b.den : ℚ)) ≠ 0 := Nat.cast_ne_zero.mpr b.den_nz
    have hbn : ((b.num : ℚ)) ≠ 0 := by
      exact_mod_cast Rat.num_ne_zero.mpr hb
    rw [qdiv, Rat.divInt_eq_div]
    conv_rhs => rw [← Rat.num_div_den a, ← Rat.num_div_den b]
    push_cast
    field_simp

lemma tenPow_eq (e : ℤ) : tenPow e = (10 : ℚ) ^ e := by
  cases e with
  | ofNat n =>
    show (((10 : ℕ) ^ n : ℕ) : ℚ) = (10 : ℚ) ^ (Int.ofNat n)
    rw [Int.ofNat_eq_coe, zpow_natCast]
    push_cast
    rfl
  | negSucc n =>
    show mkRat 1 ((10 : ℕ) ^ (n + 1)) = (10 : ℚ) ^ (Int.negSucc n)
    rw [zpow_negSucc, Rat.mkRat_eq_div, ← one_div]
    push_cast
    rfl

lemma tenPow_pos (e : ℤ) : 0 < tenPow e := by
  rw [tenPow_eq]
  positivity

lemma tenPow_ne_zero (e : ℤ) : tenPow e ≠ 0 := (tenPow_pos e).ne'

lemma mathPi_pos : 0 < mathPi := by decide

/-- C2: for positive magnitudes, the two filter formulae invert each other
exactly over the rationals (hence a fortiori within 3-significant-figure
rounding tolerance): `get_component (get_frequency r c) c = r` and
symmetrically `get_component (get_frequency r c) r = c`. -/
theorem c2_filter_math_roundtrip (r c : ℚ) (hr : 0 < r) (hc : 0 < c) :
    get_component (get_frequency r c) c = r ∧ get_component (get_frequency r c) r = c := by
  have hp : mathPi ≠ 0 := mathPi_pos.ne'
  unfold get_component get_frequency
  simp only [qdiv_eq, qmul_eq]
  constructor
  · field_simp
    ring
  · field_simp

/-- Witness for C2 at the concrete pair `r = 1`, `c = 1`. -/
theorem c2_filter_math_roundtrip_witness :
    get_component (get_frequency 1 1) 1 = 1 :=
  (c2_filter_math_roundtrip 1 1 (by decide) (by decide)).1

lemma rhe_intCast (n : ℤ) : rhe ((n : ℚ)) = n := by
  unfold rhe
  rw [Int.floor_intCast, qsub_eq, sub_self,
    if_pos (by decide : (0 : ℚ) < mkRat 1 2)]

lemma rhe_natCast (m : ℕ) : rhe ((m : ℚ)) = (m : ℤ) := by
  have h := rhe_intCast (m : ℤ)
  rw [Int.cast_natCast] at h
  exact h

lemma nat_lt_pow10 (k : ℕ) : k < 10 ^ k := by
  induction k with
  | zero => norm_num
  | succ k ih =>
    have h1 : (10 : ℕ) ^ (k + 1) = 10 * 10 ^ k := by ring
    have h2 : 0 < (10 : ℕ) ^ k := pow_pos (by norm_num) k
    omega

lemma logFuel_spec (k : ℕ) :
    ∀ f n, k < f → 10 ^ k ≤ n → n < 10 ^ (k + 1) → logFuel f n = k := by
  induction k with
  | zero =>
    intro f n hf h1 h2
    obtain ⟨f', rfl⟩ : ∃ f', f = f' + 1 := ⟨f - 1, by omega⟩
    have h10 : n < 10 := by simpa using h2
    unfold logFuel
    rw [if_pos h10]
  | succ k ih =>
    intro f n hf h1 h2
    obtain ⟨f', rfl⟩ : ∃ f', f = f' + 1 := ⟨f - 1, by omega⟩
    have hps : (10 : ℕ) ^ (k + 1) = 10 ^ k * 10 := pow_succ 10 k
    have hps2 : (10 : ℕ) ^ (k + 2) = 10 ^ (k + 1) * 10 := pow_succ 10 (k + 1)
    have hpk : 0 < (10 : ℕ) ^ k := pow_pos (by norm_num) k
    have h10 : ¬ n < 10 := by omega
    have hd1 : 10 ^ k ≤ n / 10 := by
      rw [Nat.le_div_iff_mul_le (by norm_num)]
      omega
    have hd2 : n / 10 < 10 ^ (k + 1) := by
      rw [Nat.div_lt_iff_lt_mul (by norm_num)]
      omega
    unfold logFuel
    rw [if_neg h10, ih f' (n / 10) (by omega) hd1 hd2]

lemma natLog10_eq (k n : ℕ) (h1 : 10 ^ k ≤ n) (h2 : n < 10 ^ (k + 1)) :
    natLog10 n = k :=
  logFuel_spec k n n (lt_of_lt_of_le (nat_lt_pow10 k) h1) h1 h2

lemma clogFuel_spec (k : ℕ) :
    ∀ f c, k + 1 < f → 10 ^ k < c → c ≤ 10 ^ (k + 1) → clogFuel f c = k + 1 := by
  induction k with
  | zero =>
    intro f c hf h1 h2
    obtain ⟨f', rfl⟩ : ∃ f', f = f' + 2 := ⟨f - 2, by omega⟩
    have h2' : c ≤ 10 := by simpa using h2
    have hc1 : ¬ c ≤ 1 := by omega
    have hq : (c + 9) / 10 = 1 := by omega
    show clogFuel (f' + 1 + 1) c = 1
    unfold clogFuel
    rw [if_neg hc1, hq]
    unfold clogFuel
    rw [if_pos (by omega : (1 : ℕ) ≤ 1)]
  | succ k ih =>
    intro f c hf h1 h2
    obtain ⟨f', rfl⟩ : ∃ f', f = f' + 1 := ⟨f - 1, by omega⟩
    have hps : (10 : ℕ) ^ (k + 1) = 10 ^ k * 10 := pow_succ 10 k
    have hps2 : (10 : ℕ) ^ (k + 2) = 10 ^ (k + 1) * 10 := pow_succ 10 (k + 1)
    have hpk : 0 < (10 : ℕ) ^ k := pow_pos (by norm_num) k
    have hc1 : ¬ c ≤ 1 := by omega
    have hd1 : 10 ^ k < (c + 9) / 10 := by omega
    have hd2 : (c + 9) / 10 ≤ 10 ^ (k + 1) := by omega
    unfold clogFuel
    rw [if_neg hc1, ih f' ((c + 9) / 10) (by omega) hd1 hd2]

lemma clog10_eq (k c : ℕ) (h1 : 10 ^ k < c) (h2 : c ≤ 10 ^ (k + 1)) :
    clog10 c = k + 1 := by
  have hk : k + 1 < c := by
    have := nat_lt_pow10 k
    omega
  exact clogFuel_spec k c c hk h1 h2

lemma tenPow_natCast (s : ℕ) : tenPow ((s : ℕ) : ℤ) = (((10 : ℕ) ^ s : ℕ) : ℚ) := rfl

lemma tenPow_neg (e : ℤ) : tenPow (-e) = 1 / tenPow e := by
  rw [tenPow_eq, tenPow_eq, zpow_neg, one_div]

lemma tenPow_le_one {z : ℤ} (hz : z ≤ 0) : tenPow z ≤ 1 := by
  rw [tenPow_eq]
  exact zpow_le_one_of_nonpos₀ (by norm_num) hz

lemma decExp_eq (q : ℚ) (e : ℤ) (hq : 0 < q)
    (h1 : tenPow e ≤ q) (h2 : q < tenPow (e + 1)) : decExp q = e := by
  rcases le_or_lt 0 e with he | he
  · obtain ⟨s, rfl⟩ : ∃ s : ℕ, e = (s : ℤ) := ⟨e.toNat, (Int.toNat_of_nonneg he).symm⟩
    have h1' : (((10 : ℕ) ^ s : ℕ) : ℚ) ≤ q := by rw [← tenPow_natCast]; exact h1
    have h2' : q < (((10 : ℕ) ^ (s + 1) : ℕ) : ℚ) := by
      rw [← tenPow_natCast, show ((s + 1 : ℕ) : ℤ) = (s : ℤ) + 1 from by push_cast; ring]
      exact h2
    have hpow1 : (1 : ℚ) ≤ (((10 : ℕ) ^ s : ℕ) : ℚ) := by
      have : (1 : ℕ) ≤ 10 ^ s := Nat.one_le_pow _ _ (by norm_num)
      exact_mod_cast this
    have h1q : (1 : ℚ) ≤ q := le_trans hpow1 h1'
    unfold decExp
    rw [if_pos h1q]
    have hfl : 10 ^ s ≤ ⌊q⌋₊ := Nat.le_floor h1'
    have hfu : ⌊q⌋₊ < 10 ^ (s + 1) := (Nat.floor_lt hq.le).mpr h2'
    rw [natLog10_eq s _ hfl hfu]
  · have hlt1 : q < 1 := lt_of_lt_of_le h2 (tenPow_le_one (by omega))
    obtain ⟨K, hK⟩ : ∃ K : ℕ, -(e + 1) = (K : ℤ) :=
      ⟨(-(e + 1)).toNat, (Int.toNat_of_nonneg (by omega)).symm⟩
    have hq1 : qdiv 1 q = 1 / q := qdiv_eq 1 q
    have hi1 : 1 / q ≤ tenPow (-e) := by
      have h := one_div_le_one_div_of_le (tenPow_pos e) h1
      rwa [← tenPow_neg] at h
    have hi2 : tenPow (-(e + 1)) < 1 / q := by
      have h := one_div_lt_one_div_of_lt hq h2
      rwa [← tenPow_neg] at h
    have hc1 : 10 ^ K < ⌈qdiv 1 q⌉₊ := by
      rw [hq1, Nat.lt_ceil]
      calc ((10 ^ K : ℕ) : ℚ) = tenPow ((K : ℕ) : ℤ) := (tenPow_natCast K).symm
        _ = tenPow (-(e + 1)) := by rw [← hK]
        _ < 1 / q := hi2
    have hc2 : ⌈qdiv 1 q⌉₊ ≤ 10 ^ (K + 1) := by
      rw [hq1, Nat.ceil_le]
      calc 1 / q ≤ tenPow (-e) := hi1
        _ = tenPow ((K + 1 : ℕ) : ℤ) := by rw [show ((K + 1 : ℕ) : ℤ) = -e from by omega]
        _ = (((10 : ℕ) ^ (K + 1) : ℕ) : ℚ) := tenPow_natCast (K + 1)
    unfold decExp
    rw [if_neg (not_le.mpr hlt1)]
    rw [clog10_eq K _ hc1 hc2]
    omega

lemma msig_pos (m : ℕ) (t : ℤ) (h1 : 100 ≤ m) : 0 < qmul ((m : ℕ) : ℚ) (tenPow t) := by
  rw [qmul_eq]
  have hm : (0 : ℚ) < (m : ℚ) := by exact_mod_cast (by omega : 0 < m)
  exact mul_pos hm (tenPow_pos t)

lemma msig_lo (m : ℕ) (t : ℤ) (h1 : 100 ≤ m) :
    tenPow (t + 2) ≤ qmul ((m : ℕ) : ℚ) (tenPow t) := by
  rw [qmul_eq, tenPow_eq, tenPow_eq, zpow_add₀ (by norm_num : (10 : ℚ) ≠ 0)]
  have hm : (100 : ℚ) ≤ (m : ℚ) := by exact_mod_cast h1
  have hp : (0 : ℚ) < (10 : ℚ) ^ t := by positivity
  have h10 : ((10 : ℚ)) ^ (2 : ℤ) = 100 := by norm_num
  rw [h10]
  nlinarith

lemma msig_lo_strict (m : ℕ) (t : ℤ) (h1 : 100 < m) :
    tenPow (t + 2) < qmul ((m : ℕ) : ℚ) (tenPow t) := by
  rw [qmul_eq, tenPow_eq, tenPow_eq, zpow_add₀ (by norm_num : (10 : ℚ) ≠ 0)]
  have hm : (100 : ℚ) < (m : ℚ) := by exact_mod_cast h1
  have hp : (0 : ℚ) < (10 : ℚ) ^ t := by positivity
  have h10 : ((10 : ℚ)) ^ (2 : ℤ) = 100 := by norm_num
  rw [h10]
  nlinarith

lemma msig_hi (m : ℕ) (t : ℤ) (h2 : m ≤ 999) :
    qmul ((m : ℕ) : ℚ) (tenPow t) < tenPow (t + 3) := by
  rw [qmul_eq, tenPow_eq, tenPow_eq, zpow_add₀ (by norm_num : (10 : ℚ) ≠ 0)]
  have hm : (m : ℚ) ≤ 999 := by exact_mod_cast h2
  have hp : (0 : ℚ) < (10 : ℚ) ^ t := by positivity
  have h10 : ((10 : ℚ)) ^ (3 : ℤ) = 1000 := by norm_num
  rw [h10]
  nlinarith

lemma decExp_msig (m : ℕ) (t : ℤ) (h1 : 100 ≤ m) (h2 : m ≤ 999) :
    decExp (qmul ((m : ℕ) : ℚ) (tenPow t)) = t + 2 := by
  refine decExp_eq _ _ (msig_pos m t h1) (msig_lo m t h1) ?_
  rw [show t + 2 + 1 = t + 3 from by ring]
  exact msig_hi m t h2

lemma qdiv_qmul_tenPow (x : ℚ) (a b : ℤ) :
    qdiv (qmul x (tenPow a)) (tenPow b) = qmul x (tenPow (a - b)) := by
  rw [qdiv_eq, qmul_eq, qmul_eq, tenPow_eq, tenPow_eq, tenPow_eq, mul_div_assoc,
    ← zpow_sub₀ (by norm_num : (10 : ℚ) ≠ 0)]

lemma sig_fig_fix (m : ℕ) (t : ℤ) (h1 : 100 ≤ m) (h2 : m ≤ 999) :
    sig_fig (qmul ((m : ℕ) : ℚ) (tenPow t)) = qmul ((m : ℕ) : ℚ) (tenPow t) := by
  have hq : 0 < qmul ((m : ℕ) : ℚ) (tenPow t) := msig_pos m t h1
  have ht0 : tenPow 0 = 1 := by decide
  unfold sig_fig
  rw [if_neg hq.ne', if_neg (not_lt.mpr hq.le)]
  unfold sigPos
  rw [decExp_msig m t h1 h2, show t + 2 - 2 = t from by ring]
  rw [qdiv_qmul_tenPow, sub_self, ht0, qmul_eq ((m : ℕ) : ℚ) 1, mul_one,
    rhe_natCast, Int.cast_natCast]

lemma tenPow_lt_tenPow {a b : ℤ} (h : a < b) : tenPow a < tenPow b := by
  rw [tenPow_eq, tenPow_eq]
  exact zpow_lt_zpow_right₀ (by norm_num) h

lemma one_lt_tenPow {b : ℤ} (h : 0 < b) : 1 < tenPow b := by
  have := tenPow_lt_tenPow h
  rwa [show tenPow 0 = 1 from by decide] at this

lemma tenPow_lt_one {b : ℤ} (h : b < 0) : tenPow b < 1 := by
  have := tenPow_lt_tenPow h
  rwa [show tenPow 0 = 1 from by decide] at this

lemma scan_cond (q : ℚ) (i : ℤ) :
    (1000 > qdiv q (tenPow i) ∧ qdiv q (tenPow i) > 1) ↔
      (tenPow i < q ∧ q < tenPow (i + 3)) := by
  rw [qdiv_eq, gt_iff_lt, gt_iff_lt, div_lt_iff₀ (tenPow_pos i), one_lt_div (tenPow_pos i)]
  rw [show tenPow (i + 3) = 1000 * tenPow i from by
    rw [tenPow_eq, tenPow_eq, zpow_add₀ (by norm_num : (10 : ℚ) ≠ 0)]
    norm_num
    ring]
  exact and_comm

lemma scanExp_cons (q : ℚ) (i : ℤ) (rest : List ℤ) :
    scanExp q (i :: rest) =
      if tenPow i < q ∧ q < tenPow (i + 3) then i else scanExp q rest := by
  show (if 1000 > qdiv q (tenPow i) ∧ qdiv q (tenPow i) > 1 then i else scanExp q rest) = _
  rw [if_congr (scan_cond q i) rfl rfl]

lemma scan_hit (q : ℚ) (i : ℤ) (rest : List ℤ)
    (h1 : tenPow i < q) (h2 : q < tenPow (i + 3)) : scanExp q (i :: rest) = i := by
  rw [scanExp_cons, if_pos ⟨h1, h2⟩]

lemma scan_skip_hi (q : ℚ) (i : ℤ) (rest : List ℤ) (h : tenPow (i + 3) ≤ q) :
    scanExp q (i :: rest) = scanExp q rest := by
  rw [scanExp_cons, if_neg]
  rintro ⟨-, hx⟩
  exact absurd hx (not_lt.mpr h)

lemma scan_skip_lo (q : ℚ) (i : ℤ) (rest : List ℤ) (h : q ≤ tenPow i) :
    scanExp q (i :: rest) = scanExp q rest := by
  rw [scanExp_cons, if_neg]
  rintro ⟨hx, -⟩
  exact absurd hx (not_lt.mpr h)

lemma pickExp_3 (q : ℚ) (h1 : tenPow 3 < q) (h2 : q < tenPow 6) : pickExp q = 3 := by
  have hq1 : q > 1 := lt_trans (one_lt_tenPow (by norm_num)) h1
  unfold pickExp
  rw [if_pos hq1, scan_hit]
  · exact h1
  · rwa [show (3 : ℤ) + 3 = 6 from by norm_num]

lemma pickExp_6 (q : ℚ) (h1 : tenPow 6 < q) (h2 : q < tenPow 9) : pickExp q = 6 := by
  have hq1 : q > 1 := lt_trans (one_lt_tenPow (by norm_num)) h1
  unfold pickExp
  rw [if_pos hq1, scan_skip_hi, scan_hit]
  · exact h1
  · rwa [show (6 : ℤ) + 3 = 9 from by norm_num]
  · rw [show (3 : ℤ) + 3 = 6 from by norm_num]
    exact h1.le

lemma pickExp_m3 (q : ℚ) (h1 : tenPow (-3) < q) (h2 : q < tenPow 0) : pickExp q = -3 := by
  have hq2 : q < 1 := by rwa [show tenPow 0 = 1 from by decide] at h2
  unfold pickExp
  rw [if_neg (not_lt.mpr hq2.le), if_pos hq2, scan_skip_hi, scan_skip_hi, scan_skip_hi,
    scan_hit]
  · exact h1
  · rwa [show (-3 : ℤ) + 3 = 0 from by norm_num]
  · rw [show (-6 : ℤ) + 3 = -3 from by norm_num]
    exact h1.le
  · rw [show (-9 : ℤ) + 3 = -6 from by norm_num]
    exact ((tenPow_lt_tenPow (by norm_num : (-6 : ℤ) < -3)).trans h1).le
  · rw [show (-12 : ℤ) + 3 = -9 from by norm_num]
    exact ((tenPow_lt_tenPow (by norm_num : (-9 : ℤ) < -3)).trans h1).le

lemma pickExp_m6 (q : ℚ) (h1 : tenPow (-6) < q) (h2 : q < tenPow (-3)) : pickExp q = -6 := by
  have hq2 : q < 1 := h2.trans (tenPow_lt_one (by norm_num))
  unfold pickExp
  rw [if_neg (not_lt.mpr hq2.le), if_pos hq2, scan_skip_hi, scan_skip_hi, scan_hit]
  · exact h1
  · rwa [show (-6 : ℤ) + 3 = -3 from by norm_num]
  · rw [show (-9 : ℤ) + 3 = -6 from by norm_num]
    exact h1.le
  · rw [show (-12 : ℤ) + 3 = -9 from by norm_num]
    exact ((tenPow_lt_tenPow (by norm_num : (-9 : ℤ) < -6)).trans h1).le

lemma pickExp_m9 (q : ℚ) (h1 : tenPow (-9) < q) (h2 : q < tenPow (-6)) : pickExp q = -9 := by
  have hq2 : q < 1 := h2.trans (tenPow_lt_one (by norm_num))
  unfold pickExp
  rw [if_neg (not_lt.mpr hq2.le), if_pos hq2, scan_skip_hi, scan_hit]
  · exact h1
  · rwa [show (-9 : ℤ) + 3 = -6 from by norm_num]
  · rw [show (-12 : ℤ) + 3 = -9 from by norm_num]
    exact h1.le

lemma pickExp_m12 (q : ℚ) (h1 : tenPow (-12) < q) (h2 : q < tenPow (-9)) :
    pickExp q = -12 := by
  have hq2 : q < 1 := h2.trans (tenPow_lt_one (by norm_num))
  unfold pickExp
  rw [if_neg (not_lt.mpr hq2.le), if_pos hq2, scan_hit]
  · exact h1
  · rwa [show (-12 : ℤ) + 3 = -9 from by norm_num]

lemma pickExp_bare (q : ℚ) (h1 : 1 ≤ q) (h2 : q < 1000) : pickExp q = 1 := by
  have ht3 : tenPow 3 = 1000 := by decide
  rcases eq_or_lt_of_le h1 with heq | hlt
  · unfold pickExp
    rw [if_neg (by rw [← heq]; exact lt_irrefl 1), if_neg (by rw [← heq]; exact lt_irrefl 1)]
  · unfold pickExp
    rw [if_pos hlt, scan_skip_lo, scan_skip_lo]
    · rfl
    · exact le_trans h2.le (by rw [ht3] at *; exact (tenPow_lt_tenPow (by norm_num : (3 : ℤ) < 6)).le)
    · rw [ht3]
      exact h2.le

lemma claimC3_of_scaled (v : ℚ) (e : ℤ) (he : e ∈ stepList) (hne : e ≠ 1)
    (hpe : pickExp v = e) (hsym : prefixSym e = some (symFor e))
    (hfix : sig_fig (qdiv v (tenPow e)) = qdiv v (tenPow e))
    (hr1 : 1 ≤ qdiv v (tenPow e)) (hr2 : qdiv v (tenPow e) < 1000) : ClaimC3 v := by
  refine ⟨e, he, ?_, hr1, hr2⟩
  unfold add_prefix
  rw [hpe, if_pos hne, hsym, hfix]

lemma claimC3_of_bare (v : ℚ) (hpe : pickExp v = 1) (h1 : 1 ≤ v) (h2 : v < 1000) :
    ClaimC3 v := by
  have h0 : qdiv v (tenPow 0) = v := by
    rw [qdiv_eq, show tenPow 0 = 1 from by decide, div_one]
  refine ⟨0, by decide, ?_, ?_, ?_⟩
  · unfold add_prefix
    rw [hpe, if_neg (by simp), h0, show symFor 0 = [] from rfl, List.append_nil]
  · rw [h0]
    exact h1
  · rw [h0]
    exact h2

lemma tenPow_le_tenPow {a b : ℤ} (h : a ≤ b) : tenPow a ≤ tenPow b := by
  rcases h.lt_or_eq with hl | he
  · exact (tenPow_lt_tenPow hl).le
  · rw [he]

lemma v_gt (m : ℕ) (t a : ℤ) (hm : 100 ≤ m) (h : a < t + 2) :
    tenPow a < qmul ((m : ℕ) : ℚ) (tenPow t) :=
  lt_of_lt_of_le (tenPow_lt_tenPow h) (msig_lo m t hm)

lemma v_gt_strict (m : ℕ) (t a : ℤ) (hm : 100 < m) (h : a = t + 2) :
    tenPow a < qmul ((m : ℕ) : ℚ) (tenPow t) := by
  rw [h]
  exact msig_lo_strict m t hm

lemma v_lt (m : ℕ) (t b : ℤ) (hm : m ≤ 999) (h : t + 3 ≤ b) :
    qmul ((m : ℕ) : ℚ) (tenPow t) < tenPow b :=
  lt_of_lt_of_le (msig_hi m t hm) (tenPow_le_tenPow h)

lemma v_ge_one (m : ℕ) (t : ℤ) (hm : 100 ≤ m) (h : -2 ≤ t) :
    1 ≤ qmul ((m : ℕ) : ℚ) (tenPow t) :=
  calc (1 : ℚ) = tenPow 0 := by decide
    _ ≤ tenPow (t + 2) := tenPow_le_tenPow (by omega)
    _ ≤ qmul ((m : ℕ) : ℚ) (tenPow t) := msig_lo m t hm

lemma v_lt_1000 (m : ℕ) (t : ℤ) (hm : m ≤ 999) (h : t ≤ 0) :
    qmul ((m : ℕ) : ℚ) (tenPow t) < 1000 :=
  calc qmul ((m : ℕ) : ℚ) (tenPow t) < tenPow (t + 3) := msig_hi m t hm
    _ ≤ tenPow 3 := tenPow_le_tenPow (by omega)
    _ = 1000 := by decide

lemma claimC3_msig (m : ℕ) (hm1 : 100 ≤ m) (hm2 : m ≤ 999) (t e : ℤ)
    (he : e ∈ stepList) (hne : e ≠ 1) (hsym : prefixSym e = some (symFor e))
    (htl : -2 ≤ t - e) (hth : t - e ≤ 0)
    (hpe : pickExp (qmul ((m : ℕ) : ℚ) (tenPow t)) = e) :
    ClaimC3 (qmul ((m : ℕ) : ℚ) (tenPow t)) := by
  have hdv := qdiv_qmul_tenPow ((m : ℕ) : ℚ) t e
  apply claimC3_of_scaled _ e he hne hpe hsym
  · rw [hdv]
    exact sig_fig_fix m (t - e) hm1 hm2
  · rw [hdv]
    exact v_ge_one m (t - e) hm1 htl
  · rw [hdv]
    exact v_lt_1000 m (t - e) hm2 hth

/-- C3 (amended): for every positive value with exactly three significant
decimal digits — `v = m * 10^(j-2)` with `100 ≤ m ≤ 999` — in the
representable range `10^-12 ≤ v < 10^9`, excluding the six exact powers
`10^-12, 10^-9, 10^-6, 10^-3, 10^3, 10^6` (where the strict scan comparison
`… > 1` fails and the bare number is returned), the string produced by
`add_prefix` is `<number><prefix-symbol-or-empty>` with the numeric part in
`[1, 1000)` and the symbol of the matching power-of-ten step. -/
theorem c3_engineering_form_amended (m : ℕ) (j : ℤ) (hm1 : 100 ≤ m) (hm2 : m ≤ 999)
    (hj1 : -12 ≤ j) (hj2 : j ≤ 8)
    (hb : ¬(m = 100 ∧ j ∈ ([-12, -9, -6, -3, 3, 6] : List ℤ))) :
    ClaimC3 (qmul ((m : ℕ) : ℚ) (tenPow (j - 2))) := by
  interval_cases j
  · have hm' : 100 < m := by
      have : m ≠ 100 := fun hEq => hb ⟨hEq, by decide⟩
      omega
    exact claimC3_msig m hm1 hm2 _ (-12) (by decide) (by decide) (by decide)
      (by norm_num) (by norm_num)
      (pickExp_m12 _ (v_gt_strict m _ (-12) hm' (by norm_num)) (v_lt m _ (-9) hm2 (by norm_num)))
  · exact claimC3_msig m hm1 hm2 _ (-12) (by decide) (by decide) (by decide)
      (by norm_num) (by norm_num)
      (pickExp_m12 _ (v_gt m _ (-12) hm1 (by norm_num)) (v_lt m _ (-9) hm2 (by norm_num)))
  · exact claimC3_msig m hm1 hm2 _ (-12) (by decide) (by decide) (by decide)
      (by norm_num) (by norm_num)
      (pickExp_m12 _ (v_gt m _ (-12) hm1 (by norm_num)) (v_lt m _ (-9) hm2 (by norm_num)))
  · have hm' : 100 < m := by
      have : m ≠ 100 := fun hEq => hb ⟨hEq, by decide⟩
      omega
    exact claimC3_msig m hm1 hm2 _ (-9) (by decide) (by decide) (by decide)
      (by norm_num) (by norm_num)
      (pickExp_m9 _ (v_gt_strict m _ (-9) hm' (by norm_num)) (v_lt m _ (-6) hm2 (by norm_num)))
  · exact claimC3_msig m hm1 hm2 _ (-9) (by decide) (by decide) (by decide)
      (by norm_num) (by norm_num)
      (pickExp_m9 _ (v_gt m _ (-9) hm1 (by norm_num)) (v_lt m _ (-6) hm2 (by norm_num)))
  · exact claimC3_msig m hm1 hm2 _ (-9) (by decide) (by decide) (by decide)
      (by norm_num) (by norm_num)
      (pickExp_m9 _ (v_gt m _ (-9) hm1 (by norm_num)) (v_lt m _ (-6) hm2 (by norm_num)))
  · have hm' : 100 < m := by
      have : m ≠ 100 := fun hEq => hb ⟨hEq, by decide⟩
      omega
    exact claimC3_msig m hm1 hm2 _ (-6) (by decide) (by decide) (by decide)
      (by norm_num) (by norm_num)
      (pickExp_m6 _ (v_gt_strict m _ (-6) hm' (by norm_num)) (v_lt m _ (-3) hm2 (by norm_num)))
  · exact claimC3_msig m hm1 hm2 _ (-6) (by decide) (by decide) (by decide)
      (by norm_num) (by norm_num)
      (pickExp_m6 _ (v_gt m _ (-6) hm1 (by norm_num)) (v_lt m _ (-3) hm2 (by norm_num)))
  · exact claimC3_msig m hm1 hm2 _ (-6) (by decide) (by decide) (by decide)
      (by norm_num) (by norm_num)
      (pickExp_m6 _ (v_gt m _ (-6) hm1 (by norm_num)) (v_lt m _ (-3) hm2 (by norm_num)))
  · have hm' : 100 < m := by
      have : m ≠ 100 := fun hEq => hb ⟨hEq, by decide⟩
      omega
    exact claimC3_msig m hm1 hm2 _ (-3) (by decide) (by decide) (by decide)
      (by norm_num) (by norm_num)
      (pickExp_m3 _ (v_gt_strict m _ (-3) hm' (by norm_num)) (v_lt m _ 0 hm2 (by norm_num)))
  · exact claimC3_msig m hm1 hm2 _ (-3) (by decide) (by decide) (by decide)
      (by norm_num) (by norm_num)
      (pickExp_m3 _ (v_gt m _ (-3) hm1 (by norm_num)) (v_lt m _ 0 hm2 (by norm_num)))
  · exact claimC3_msig m hm1 hm2 _ (-3) (by decide) (by decide) (by decide)
      (by norm_num) (by norm_num)
      (pickExp_m3 _ (v_gt m _ (-3) hm1 (by norm_num)) (v_lt m _ 0 hm2 (by norm_num)))
  · exact claimC3_of_bare _
      (pickExp_bare _ (v_ge_one m _ hm1 (by norm_num)) (v_lt_1000 m _ hm2 (by norm_num)))
      (v_ge_one m _ hm1 (by norm_num)) (v_lt_1000 m _ hm2 (by norm_num))
  · exact claimC3_of_bare _
      (pickExp_bare _ (v_ge_one m _ hm1 (by norm_num)) (v_lt_1000 m _ hm2 (by norm_num)))
      (v_ge_one m _ hm1 (by norm_num)) (v_lt_1000 m _ hm2 (by norm_num))
  · exact claimC3_of_bare _
      (pickExp_bare _ (v_ge_one m _ hm1 (by norm_num)) (v_lt_1000 m _ hm2 (by norm_num)))
      (v_ge_one m _ hm1 (by norm_num)) (v_lt_1000 m _ hm2 (by norm_num))
  · have hm' : 100 < m := by
      have : m ≠ 100 := fun hEq => hb ⟨hEq, by decide⟩
      omega
    exact claimC3_msig m hm1 hm2 _ 3 (by decide) (by decide) (by decide)
      (by norm_num) (by norm_num)
      (pickExp_3 _ (v_gt_strict m _ 3 hm' (by norm_num)) (v_lt m _ 6 hm2 (by norm_num)))
  · exact claimC3_msig m hm1 hm2 _ 3 (by decide) (by decide) (by decide)
      (by norm_num) (by norm_num)
      (pickExp_3 _ (v_gt m _ 3 hm1 (by norm_num)) (v_lt m _ 6 hm2 (by norm_num)))
  · exact claimC3_msig m hm1 hm2 _ 3 (by decide) (by decide) (by decide)
      (by norm_num) (by norm_num)
      (pickExp_3 _ (v_gt m _ 3 hm1 (by norm_num)) (v_lt m _ 6 hm2 (by norm_num)))
  · have hm' : 100 < m := by
      have : m ≠ 100 := fun hEq => hb ⟨hEq, by decide⟩
      omega
    exact claimC3_msig m hm1 hm2 _ 6 (by decide) (by decide) (by decide)
      (by norm_num) (by norm_num)
      (pickExp_6 _ (v_gt_strict m _ 6 hm' (by norm_num)) (v_lt m _ 9 hm2 (by norm_num)))
  · exact claimC3_msig m hm1 hm2 _ 6 (by decide) (by decide) (by decide)
      (by norm_num) (by norm_num)
      (pickExp_6 _ (v_gt m _ 6 hm1 (by norm_num)) (v_lt m _ 9 hm2 (by norm_num)))
  · exact claimC3_msig m hm1 hm2 _ 6 (by decide) (by decide) (by decide)
      (by norm_num) (by norm_num)
      (pickExp_6 _ (v_gt m _ 6 hm1 (by norm_num)) (v_lt m _ 9 hm2 (by norm_num)))

/-- C3 counterexample: at the input `1000` — a plain float already rounded to
3 significant figures — the claim fails: both scan branches miss (the
quotient `1000 / 10^3 = 1` is not `> 1`), `add_prefix` returns the bare
string `1000`, and no available step puts the numeric part into
`[1, 1000)`. -/
theorem c3_claim_counterexample : add_prefix 1000 = some ['1', '0', '0', '0'] ∧
    ¬ ClaimC3 1000 := by
  constructor
  · decide
  · decide

/-- Witness for C3 (amended) at `m = 398`, `j = -11`, the value
`3.98e-11` of the regression scenario. -/
theorem c3_engineering_form_witness :
    ClaimC3 (qmul ((398 : ℕ) : ℚ) (tenPow (-11 - 2))) :=
  c3_engineering_form_amended 398 (-11) (by decide) (by decide) (by decide)
    (by decide) (by decide)

/-- C5: `sig_fig` maps the float `3.978873577297384e-11` (the value
`get_component` produces in the regression scenario) to exactly `3.98e-11`,
with no spurious trailing digits: the embedding rounds the exact decimal, as
the source's round-trip through the `%.3g` decimal text does. -/
theorem c5_sig_fig_decimal :
    sig_fig (mkRat 3978873577297384 (10 ^ 26)) = mkRat 398 (10 ^ 13) := by
  decide

/-- C9: exact-boundary fallback of `add_prefix`.  At `1000` the quotient by
`10^3` is exactly `1`, so neither scan branch matches, the sentinel exponent
survives, and the bare integer rendering is returned with no prefix symbol;
the input `1` itself likewise matches neither branch.  (The same holds at
`10^6`.) -/
theorem c9_exact_boundary_no_scaling :
    add_prefix 1000 = some ['1', '0', '0', '0'] ∧ add_prefix 1 = some ['1'] ∧
      add_prefix (tenPow 6) = some ['1', '0', '0', '0', '0', '0', '0'] := by
  refine ⟨by decide, by decide, by decide⟩

lemma scanExp_neg (q : ℚ) (hq : q < 0) (l : List ℤ) : scanExp q l = 1 := by
  induction l with
  | nil => rfl
  | cons i rest ih =>
    rw [scanExp_cons, if_neg, ih]
    rintro ⟨hx, -⟩
    exact absurd hx (not_lt.mpr (hq.trans (tenPow_pos i)).le)

/-- C10: a negative value never receives a prefix symbol: it falls into the
values-below-1 scan, every condition `1000 > q/10^i > 1` fails because the
quotient is negative, the exponent keeps its sentinel value `1`, and
`add_prefix` returns the bare decimal rendering (as an `int` when the value
is integral, which `renderNum` performs). -/
theorem c10_negative_bare (q : ℚ) (hq : q < 0) :
    add_prefix q = some (renderNum q) := by
  have hpe : pickExp q = 1 := by
    unfold pickExp
    rw [if_neg (not_lt.mpr (hq.le.trans zero_le_one)), if_pos (hq.trans zero_lt_one),
      scanExp_neg q hq]
  unfold add_prefix
  rw [hpe, if_neg (by simp)]

/-- Witness for C10 at `q = -5`: the bare rendering is `-5`, no prefix. -/
theorem c10_negative_bare_witness :
    add_prefix (-5) = some (renderNum (-5)) ∧ renderNum (-5 : ℚ) = ['-', '5'] :=
  ⟨c10_negative_bare (-5) (by decide), by decide⟩

/-- C1: the documented regression scenario.  The tokens `200ko` and `20kHz`
parse to resistance `200000` and frequency `20000`; `get_component` then
yields the capacitance, which `sig_fig` rounds and `add_prefix` formats to
exactly the string `39.8p`. -/
theorem c1_end_to_end_regression :
    parse_value ['2', '0', '0', 'k', 'o'] = .ok 200000 ∧
    parse_kind ['2', '0', '0', 'k', 'o'] = some .resistance ∧
    parse_value ['2', '0', 'k', 'H', 'z'] = .ok 20000 ∧
    parse_kind ['2', '0', 'k', 'H', 'z'] = some .frequency ∧
    add_prefix (sig_fig (get_component 20000 200000)) =
      some ['3', '9', '.', '8', 'p'] := by
  refine ⟨by decide, by decide, by decide, by decide, by decide⟩

/-- C4 counterexample: parsing `20KHZ` does not fail.  Case normalization
lowercases the `K` silently, and the token parses to frequency `20000.0`
exactly like `20kHz`. -/
theorem c4_claim_counterexample :
    parse_value ['2', '0', 'K', 'H', 'Z'] = .ok 20000 ∧
    parse_kind ['2', '0', 'K', 'H', 'Z'] = some .frequency := by
  refine ⟨by decide, by decide⟩

/-- C4 (amended): case normalization lowercases the whole token except a
privileged first `M`, so `20KHZ` is silently normalized — `K` is treated as
`k` — and parses to frequency `20000.0` exactly like `20kHz`; only `M`
survives case normalization, keeping mega (`1Mo` is `1e6` ohm) distinct
from milli (`1mo` is `1e-3` ohm). -/
theorem c4_case_normalization_amended :
    parse_value ['2', '0', 'K', 'H', 'Z'] = .ok 20000 ∧
    parse_kind ['2', '0', 'K', 'H', 'Z'] = some .frequency ∧
    parse_value ['2', '0', 'k', 'H', 'z'] = .ok 20000 ∧
    parse_value ['1', 'M', 'o'] = .ok 1000000 ∧
    parse_value ['1', 'm', 'o'] = .ok (mkRat 1 1000) := by
  refine ⟨by decide, by decide, by decide, by decide, by decide⟩

lemma prefVal_digit (d : Char) (hd : d.isDigit = true) : prefVal d = none := by
  unfold prefVal
  split_ifs with h1 h2 h3 h4 h5 h6
  · exact absurd hd (by rw [h1]; decide)
  · exact absurd hd (by rw [h2]; decide)
  · exact absurd hd (by rw [h3]; decide)
  · exact absurd hd (by rw [h4]; decide)
  · exact absurd hd (by rw [h5]; decide)
  · exact absurd hd (by rw [h6]; decide)
  · rfl

/-- C6 counterexample: the token `5` ends in a digit and is itself a valid
plain number, yet `strip_prefix` does not return it — `float(value[:-1])` is
evaluated before the prefix lookup, only `KeyError` is caught, and
`float('')` raises an uncaught `ValueError`, so the function crashes before
the digit fallback is reached. -/
theorem c6_claim_counterexample :
    Char.isDigit '5' = true ∧ pyFloat ['5'] = some 5 ∧
      strip_prefix ['5'] = .error .valueError := by
  refine ⟨by decide, by decide, by decide⟩

/-- C6 (amended): `strip_prefix` resolves `200k` to `200000.0` and `20n` to
`2e-8`.  In general, whenever the numeric head `value[:-1]` itself parses as
a float, a recognized trailing prefix symbol (`p`, `n`, `u`, `m`, `k`, `M`)
multiplies the head by `1e-12`, `1e-9`, `1e-6`, `1e-3`, `1e3`, `1e6`
respectively, and a token ending in a digit is parsed whole as a plain
number with scale 1.  When the head does not parse — as for `5` (head `''`),
`1e5` (head `1e`) or `.5` (head `.`) — the `ValueError` from
`float(value[:-1])` escapes the `KeyError`-only handler and the function
crashes, even when the token ends in a digit and is itself a valid
number. -/
theorem c6_strip_prefix_resolution_amended :
    strip_prefix ['2', '0', '0', 'k'] = .ok 200000 ∧
    strip_prefix ['2', '0', 'n'] = .ok (mkRat 1 50000000) ∧
    (∀ (cs : List Char) (q : ℚ) (p : Char) (f : ℚ),
      pyFloat cs = some q → prefVal p = some f →
      strip_prefix (cs ++ [p]) = .ok (qmul q f)) ∧
    (∀ (cs : List Char) (d : Char) (qh q : ℚ),
      d.isDigit = true → pyFloat cs = some qh → pyFloat (cs ++ [d]) = some q →
      strip_prefix (cs ++ [d]) = .ok q) ∧
    (∀ cs : List Char, pyFloat cs.dropLast = none →
      strip_prefix cs = .error .valueError) := by
  refine ⟨by decide, by decide, ?_, ?_, ?_⟩
  · intro cs q p f hq hf
    simp only [ strip_prefix, List.dropLast_concat, hq, List.getLast?_concat, hf]
  · intro cs d qh q hd hqh hq
    simp only [ strip_prefix, List.dropLast_concat, hqh, List.getLast?_concat,
      prefVal_digit d hd, hd, hq]
    rfl
  · intro cs h
    simp only [ strip_prefix, h]

/-- Witness for C6 (amended): `30m` resolves to `30 * 1e-3` through the
prefix-symbol clause, `45` (head `4` parseable, trailing digit) to `45`
through the plain-number clause, and `1e5` (head `1e` unparseable) crashes
through the uncaught-`ValueError` clause. -/
theorem c6_strip_prefix_resolution_witness :
    strip_prefix (['3', '0'] ++ ['m']) = .ok (qmul 30 (tenPow (-3))) ∧
    strip_prefix (['4'] ++ ['5']) = .ok 45 ∧
    strip_prefix ['1', 'e', '5'] = .error .valueError :=
  ⟨c6_strip_prefix_resolution_amended.2.2.1 ['3', '0'] 30 'm' (tenPow (-3)) (by decide) rfl,
   c6_strip_prefix_resolution_amended.2.2.2.1 ['4'] '5' 4 45 (by decide) (by decide) (by decide),
   c6_strip_prefix_resolution_amended.2.2.2.2 ['1', 'e', '5'] (by decide)⟩

lemma pyFindAux_eq_none (p : Char → Bool) (l : List Char)
    (h : ∀ c ∈ l, p c = false) : pyFindAux p l = none := by
  induction l with
  | nil => rfl
  | cons c cs ih =>
    have hc : p c = false := h c (List.mem_cons_self c cs)
    have hrest : ∀ x ∈ cs, p x = false := fun x hx => h x (List.mem_cons_of_mem c hx)
    unfold pyFindAux
    rw [if_neg (by simp [hc]), ih hrest]
    rfl

/-- C7: error behaviour of `input_tidy`.  A token shorter than 2 characters
raises the missing-units `Exception`; a token of length at least 2 whose
whitespace-stripped, case-normalized form contains none of the letters `o`,
`h`, `f` raises the unit-not-recognized `ValueError`. -/
theorem c7_input_tidy_errors (cs : List Char) :
    (cs.length < 2 → input_tidy cs = .error .exception) ∧
    (2 ≤ cs.length → (∀ c ∈ tidyCase cs, c ≠ 'o' ∧ c ≠ 'h' ∧ c ≠ 'f') →
      input_tidy cs = .error .valueError) := by
  constructor
  · intro h
    simp only [input_tidy]
    rw [if_neg (by omega)]
  · intro h hc
    have ho : pyFindAux (fun c => c == 'o') (tidyCase cs) = none :=
      pyFindAux_eq_none _ _ (fun c hm => beq_eq_false_iff_ne.mpr (hc c hm).1)
    have hh : pyFindAux (fun c => c == 'h') (tidyCase cs) = none :=
      pyFindAux_eq_none _ _ (fun c hm => beq_eq_false_iff_ne.mpr (hc c hm).2.1)
    have hf : pyFindAux (fun c => c == 'f') (tidyCase cs) = none :=
      pyFindAux_eq_none _ _ (fun c hm => beq_eq_false_iff_ne.mpr (hc c hm).2.2)
    simp only [input_tidy]
    rw [if_pos h, ho, hh, hf]

/-- Witness for C7 at the 1-character token `x` and the unitless token
`12`. -/
theorem c7_input_tidy_errors_witness :
    input_tidy ['x'] = .error .exception ∧ input_tidy ['1', '2'] = .error .valueError :=
  ⟨(c7_input_tidy_errors ['x']).1 (by decide),
   (c7_input_tidy_errors ['1', '2']).2 (by decide) (by decide)⟩

/-- C8 counterexample: `sig_fig` on the unparseable string `abc` does not
return a value — after the handler prints its report, formatting the
still-string value with the numeric code `.3g` raises an uncaught
`ValueError`, modelled as the error result. -/
theorem c8_claim_counterexample :
    sig_fig_str ['a', 'b', 'c'] = .error .valueError := by decide

/-- C8 (amended): `sig_fig` accepts a string by first converting it with
`float`; a parseable string is rounded as a number, but every unparseable
string, after the printed report, still terminates in an uncaught
`ValueError` raised by the `.3g` formatting of the non-numeric value — the
failure is reported and then raised, not recovered from. -/
theorem c8_sig_fig_string_amended :
    (∀ cs : List Char, pyFloat cs = none → sig_fig_str cs = .error .valueError) ∧
    (∀ (cs : List Char) (q : ℚ), pyFloat cs = some q → sig_fig_str cs = .ok (sig_fig q)) ∧
    sig_fig_str ['3', '9', '.', '8'] = .ok (mkRat 199 5) := by
  refine ⟨?_, ?_, by decide⟩
  · intro cs h
    unfold sig_fig_str
    rw [h]
  · intro cs q h
    unfold sig_fig_str
    rw [h]

/-- Witness for C8 (amended) at the unparseable token `zz` and the parseable
token `7`. -/
theorem c8_sig_fig_string_witness :
    sig_fig_str ['z', 'z'] = .error .valueError ∧ sig_fig_str ['7'] = .ok (sig_fig 7) :=
  ⟨c8_sig_fig_string_amended.1 ['z', 'z'] (by decide),
   c8_sig_fig_string_amended.2.1 ['7'] 7 (by decide)⟩
